import Mathlib

/-!
Verification of the BLE smart-device hub against its specification.

The development shallowly embeds the Python sources:
- `src/hub.py` `process_ble_data` (regex-based telemetry field extraction),
- `src/code.py` `get_sensor_data` (two-decimal wire formatting on the device),
- `src/bleConnector.py` `_find_device`, `_notification_handler`,
  `_notify_connection_status` / `_process_uart_data` dispatch loops, and the
  reconnect loop of `start`.

Text is modelled as `List Char` (Python `str`), byte buffers as `List ℕ`
(values < 256), and floating point readings as exact rationals `ℚ`.  The
regular-expression fragments used by the sources are fixed patterns
(`T:(\d+\.\d+)`, `H:(\d+\.\d+)`, `L:(\d+(?:\.\d+)?)`), embedded directly as
leftmost-match scanners with greedy digit runs, which coincides with Python
`re.search` semantics for these patterns (digits and `.` are disjoint, so no
backtracking ambiguity arises).  Digits are modelled as ASCII digits.
-/

/-- Digit value of an ASCII digit character, as produced by Python `float`
conversion of a regex group consisting of digits and a dot. -/
def digToNat (c : Char) : ℕ := c.toNat - '0'.toNat

/-- Numeric value of a list of ASCII digit characters (most significant first). -/
def natOfDigits (ds : List Char) : ℕ := ds.foldl (fun a c => 10 * a + digToNat c) 0

/-- Model of Python `float(group)` for a regex group of shape `\d+` or
`\d+\.\d+`: the exact rational value of the decimal literal. -/
def floatOfChars (cs : List Char) : ℚ :=
  let intPart := cs.takeWhile Char.isDigit
  match cs.dropWhile Char.isDigit with
  | '.' :: frac => (natOfDigits intPart : ℚ) + (natOfDigits frac : ℚ) / 10 ^ frac.length
  | _ => (natOfDigits intPart : ℚ)

/-- Model of Python `pat in s` (substring containment), used for stating the
hypotheses of the spec (contains no `T:`/`H:`/`L:` substrings) and the resolver
name matching.  `startsWithChars pat s` is true when `pat` is a prefix of `s`. -/
def startsWithChars : List Char → List Char → Bool
  | [], _ => true
  | _ :: _, [] => false
  | p :: ps, c :: cs => p = c && startsWithChars ps cs

/-- Substring containment on character lists (Python `pat in s`). -/
def containsChars (pat : List Char) : List Char → Bool
  | [] => pat.isEmpty
  | c :: rest => startsWithChars pat (c :: rest) || containsChars pat rest

/-- Model of the regex fragment `\d+\.\d+` matched at the current position:
a nonempty greedy run of digits, a dot, then a nonempty greedy run of digits.
Returns the matched group text (`re` group 1 of `T:(\d+\.\d+)`). -/
def matchFloatAt (cs : List Char) : Option (List Char) :=
  let d1 := cs.takeWhile Char.isDigit
  if d1 = [] then none
  else
    match cs.dropWhile Char.isDigit with
    | '.' :: r2 =>
      let d2 := r2.takeWhile Char.isDigit
      if d2 = [] then none else some (d1 ++ '.' :: d2)
    | _ => none

/-- Model of the regex fragment `\d+(?:\.\d+)?` matched at the current
position: a nonempty digit run, optionally followed by a dot and a nonempty
digit run (the optional part is dropped when no digit follows the dot). -/
def matchLightAt (cs : List Char) : Option (List Char) :=
  let d1 := cs.takeWhile Char.isDigit
  if d1 = [] then none
  else
    match cs.dropWhile Char.isDigit with
    | '.' :: r2 =>
      let d2 := r2.takeWhile Char.isDigit
      if d2 = [] then some d1 else some (d1 ++ '.' :: d2)
    | _ => some d1

/-- Model of Python `re.search` for the fixed patterns `K:(<body>)` used by the
sources: scan left to right; at each position where the key character is
followed by `:`, try the body matcher `m`; on failure resume scanning at the
next position.  Returns the first (leftmost) group, as `re.search` does. -/
def searchKey (m : List Char → Option (List Char)) (key : Char) : List Char → Option (List Char)
  | [] => none
  | c :: rest =>
    if c = key ∧ rest.head? = some ':' then
      match m rest.tail with
      | some g => some g
      | none => searchKey m key rest
    else searchKey m key rest

/-- Search for `K:(\d+\.\d+)` (used for the `T` and `H` fields in
`hub.py process_ble_data`). -/
def searchFloat (key : Char) (s : List Char) : Option (List Char) :=
  searchKey matchFloatAt key s

/-- Search for `K:(\d+(?:\.\d+)?)` (used for the `L` field in
`hub.py process_ble_data`). -/
def searchLight (key : Char) (s : List Char) : Option (List Char) :=
  searchKey matchLightAt key s

/-- The codec-level telemetry reading: any subset of the three fields may be
present (spec section 3, `TelemetryReading`). -/
structure TelemetryReading where
  temperature : Option ℚ
  humidity : Option ℚ
  light : Option ℚ
deriving DecidableEq

/-- The pure parsing portion of `hub.py process_ble_data` (lines 141-156): the
three fields are extracted one after the other from the same input line, each
by its own `re.search`, starting from an all-absent reading. -/
def parseLine (s : List Char) : TelemetryReading :=
  let r0 : TelemetryReading := ⟨none, none, none⟩
  let r1 := match searchFloat 'T' s with
            | some g => { r0 with temperature := some (floatOfChars g) }
            | none => r0
  let r2 := match searchFloat 'H' s with
            | some g => { r1 with humidity := some (floatOfChars g) }
            | none => r1
  match searchLight 'L' s with
  | some g => { r2 with light := some (floatOfChars g) }
  | none => r2

/-- The aggregate hub state `latest_readings` of `hub.py` (lines 45-50). -/
structure HubReadings where
  temperature : Option ℚ
  humidity : Option ℚ
  light_intensity : Option ℚ
  last_update : Option ℚ
deriving DecidableEq

/-- Embedding of `hub.py process_ble_data` (lines 135-166) acting on the
`latest_readings` state: each field is overwritten only when its own pattern
matches, and `last_update` is unconditionally set to the current time.  (The
`apply_automation_rules` call only talks to external HTTP services and catches
its own exceptions; it does not touch `latest_readings`.) -/
def process_ble_data (now : ℚ) (r : HubReadings) (s : List Char) : HubReadings :=
  let r1 := match searchFloat 'T' s with
            | some g => { r with temperature := some (floatOfChars g) }
            | none => r
  let r2 := match searchFloat 'H' s with
            | some g => { r1 with humidity := some (floatOfChars g) }
            | none => r1
  let r3 := match searchLight 'L' s with
            | some g => { r2 with light_intensity := some (floatOfChars g) }
            | none => r2
  { r3 with last_update := some now }

/-- True of bytes `0x80`-`0xBF`, the UTF-8 continuation bytes. -/
def isCont (b : ℕ) : Bool := 0x80 ≤ b && b < 0xC0

/-- Strict UTF-8 decoder modelling Python `bytes.decode(utf-8)` (the decode
step of `_notification_handler`, `bleConnector.py` line 142): rejects stray
continuation bytes, overlong encodings (including `0xC0`/`0xC1` leads),
surrogate code points, code points above `0x10FFFF` and truncated sequences.
`none` models the `UnicodeDecodeError` that the handler catches. -/
def utf8Decode : List ℕ → Option (List Char)
  | [] => some []
  | b :: rest =>
    if b < 0x80 then
      (utf8Decode rest).map (fun cs => Char.ofNat b :: cs)
    else if b < 0xC2 then none
    else if b < 0xE0 then
      match rest with
      | b1 :: r =>
        if isCont b1 then
          (utf8Decode r).map (fun cs => Char.ofNat ((b - 0xC0) * 0x40 + (b1 - 0x80)) :: cs)
        else none
      | [] => none
    else if b < 0xF0 then
      match rest with
      | b1 :: b2 :: r =>
        if isCont b1 && isCont b2 then
          let cp := (b - 0xE0) * 0x1000 + (b1 - 0x80) * 0x40 + (b2 - 0x80)
          if 0x800 ≤ cp && !(0xD800 ≤ cp && cp < 0xE000) then
            (utf8Decode r).map (fun cs => Char.ofNat cp :: cs)
          else none
        else none
      | _ => none
    else if b < 0xF5 then
      match rest with
      | b1 :: b2 :: b3 :: r =>
        if isCont b1 && isCont b2 && isCont b3 then
          let cp := (b - 0xF0) * 0x40000 + (b1 - 0x80) * 0x1000 + (b2 - 0x80) * 0x40 + (b3 - 0x80)
          if 0x10000 ≤ cp && cp ≤ 0x10FFFF then
            (utf8Decode r).map (fun cs => Char.ofNat cp :: cs)
          else none
        else none
      | _ => none
    else none

/-- Whitespace stripped by Python `str.strip()` (ASCII fragment). -/
def isPySpace (c : Char) : Bool :=
  c = ' ' || c = '\t' || c = '\n' || c = '\x0d' || c = '\x0b' || c = '\x0c'

/-- Model of Python `str.strip()`: drop leading and trailing whitespace. -/
def pyStrip (cs : List Char) : List Char :=
  ((cs.dropWhile isPySpace).reverse.dropWhile isPySpace).reverse

/-- Observable outcome of one `_notification_handler` call
(`bleConnector.py` lines 138-147). -/
inductive HandlerResult where
  | processed (line : List Char)
  | rawLogged (bs : List ℕ)
deriving DecidableEq

/-- Embedding of `_notification_handler` (`bleConnector.py` lines 138-147):
decode the frame as UTF-8 and strip it, then hand it to `_process_uart_data`;
when decoding fails the exception is caught inside the handler, the error and
the raw bytes are logged, and the handler returns normally.  The function is
total: no fault escapes to the transport.  (`_process_uart_data` itself
catches every exception of its parsing step and of each data callback, so the
decode step is the only fallible operation inside the `try`.) -/
def notification_handler (bs : List ℕ) : HandlerResult :=
  match utf8Decode bs with
  | some cs => HandlerResult.processed (pyStrip cs)
  | none => HandlerResult.rawLogged bs

/-- A sequence of inbound frames is handled one at a time; each call is
independent (`bleak` invokes the handler once per notification). -/
def processFrames (frames : List (List ℕ)) : List HandlerResult :=
  frames.map notification_handler

/-- Helper digits used by the device formatter: the characters of a natural
number in base 10 (fuel-indexed to keep the recursion structural; `natChars`
always supplies sufficient fuel). -/
def natCharsAux : ℕ → ℕ → List Char
  | 0, _ => []
  | fuel + 1, n =>
    if n < 10 then [Nat.digitChar n]
    else natCharsAux fuel (n / 10) ++ [Nat.digitChar (n % 10)]

/-- Decimal digit characters of a natural number (no sign, no leading zeros
except for `0` itself), as printed by Python string formatting. -/
def natChars (n : ℕ) : List Char := natCharsAux (n + 1) n

/-- Model of Python `f"{x:.2f}"` for the nonnegative two-decimal value
`n / 100`: integer digits, a dot, then exactly two fractional digits.  The
readings quantified over in the round-trip claim are exactly those
representable in this canonical wire format (`\d+\.\d\d`), i.e. nonnegative
multiples of `1/100`, so they are indexed by the numerator `n` in
centi-units. -/
def fmt2 (n : ℕ) : List Char :=
  natChars (n / 100) ++ '.' :: [Nat.digitChar (n % 100 / 10), Nat.digitChar (n % 100 % 10)]

/-- Embedding of the f-string of `get_sensor_data` (`code.py` line 45):
`f"T:{temperature:.2f},H:{humidity:.2f},L:{light_intensity:.2f}"`, at the
reading whose three fields are the two-decimal values `t/100`, `h/100`,
`l/100`. -/
def get_sensor_line (t h l : ℕ) : List Char :=
  'T' :: ':' :: (fmt2 t ++ ',' :: 'H' :: ':' :: (fmt2 h ++ ',' :: 'L' :: ':' :: fmt2 l))

/-- A discovered BLE peer as seen by the resolver: `bleak` reports an
advertised name (possibly `None`) and an address. -/
structure Device where
  name : Option (List Char)
  address : List Char
deriving DecidableEq

/-- The configuration and identity fields of `BLEConnector.__init__`
(`bleConnector.py` lines 40-45) that `_find_device` can read or write. -/
structure ConnCfg where
  device_name : Option (List Char)
  device_address : Option (List Char)
  scan_timeout : ℚ
  connection_timeout : ℚ
  reconnect_delay : ℚ
  max_reconnect_attempts : ℕ
deriving DecidableEq

/-- The radio environment one `_find_device` call observes:
`BleakScanner.find_device_by_address` is a lookup keyed by address, and
`BleakScanner.discover` returns the list of broadcasting devices in arrival
order. -/
structure BleEnv where
  byAddress : List Char → Option Device
  discovered : List Device

/-- Python truthiness of an optional string (`if self.device_address:` is
false both for `None` and for the empty string). -/
def pyTruthy : Option (List Char) → Bool
  | none => false
  | some s => !s.isEmpty

/-- Model of Python `str.lower()` (ASCII fragment, which covers the device
names involved). -/
def lowerChars (s : List Char) : List Char := s.map Char.toLower

/-- The name test of `_find_device` (`bleConnector.py` line 132):
`device.name and self.device_name.lower() in device.name.lower()` — the
device must advertise a non-empty name that contains the target name as a
case-insensitive substring. -/
def nameMatch (target : List Char) (d : Device) : Bool :=
  match d.name with
  | some nm => !nm.isEmpty && containsChars (lowerChars target) (lowerChars nm)
  | none => false

/-- The address fast path of `_find_device` (lines 121-126): when
`device_address` is truthy, look the device up directly by address. -/
def addrLookup (st : ConnCfg) (env : BleEnv) : Option Device :=
  if pyTruthy st.device_address then env.byAddress (st.device_address.getD []) else none

/-- Embedding of `_find_device` (`bleConnector.py` lines 117-136): try the
address lookup first; if it misses (or no address is set) and a name is set,
scan and take the first name match, caching its address into
`device_address` (line 133).  Returns the found device (if any) together with
the updated connector state. -/
def find_device (st : ConnCfg) (env : BleEnv) : Option Device × ConnCfg :=
  match addrLookup st env with
  | some d => (some d, st)
  | none =>
    if pyTruthy st.device_name then
      match env.discovered.find? (nameMatch (st.device_name.getD [])) with
      | some d => (some d, { st with device_address := some d.address })
      | none => (none, st)
    else (none, st)

/-- Outcome of one `_connect_to_device` call (`bleConnector.py` lines
149-198), as determined by the peer and the transport:
`linkFail` — `client.connect()` itself raises (line 173), nothing else ran;
`setupFail` — `connect()` succeeded (so line 174 set `is_connected` and line
175 reset `reconnect_attempts`), but service discovery or notification
subscription (lines 179-187) raised, so the handler at line 195 ran and the
call returned `False` while the established link stays up with its
disconnection callback pending;
`setupOk` — the whole call succeeded and `_notify_connection_status(True)`
ran (line 192). -/
inductive ConnRes where
  | linkFail
  | setupFail
  | setupOk
deriving DecidableEq

/-- External events driving the supervisor:
`iter r` — one pass of the `while` body of `start` while disconnected
(lines 225-245): `r = none` means `_find_device` found nothing (lines
242-245), `r = some c` means a device was found and `_connect_to_device`
finished with outcome `c`;
`drop` — `bleak` invokes the `disconnection_handler` of one established
session (lines 159-163); it fires exactly once per established link, so it is
only enabled while such a link is pending. -/
inductive Ev where
  | iter (r : Option ConnRes)
  | drop
deriving DecidableEq

/-- The two sleep calls of the reconnect policy in `start`: `base` is
`asyncio.sleep(self.reconnect_delay)` (lines 240 and 244), `extended` is the
30-second cooldown of line 235. -/
inductive Sleep where
  | base
  | extended
deriving DecidableEq

/-- Supervisor state: `counter` is `self.reconnect_attempts`, `connected` is
`self.is_connected`, and `openLinks` counts established links whose
disconnection callback has not fired yet (0 or 1 in normal operation; a
`setupFail` leaves an extra one behind). -/
structure SState where
  counter : ℕ
  connected : Bool
  openLinks : ℕ
deriving DecidableEq

/-- The state after `__init__`: `reconnect_attempts = 0`, not connected, no
established link. -/
def initState : SState := ⟨0, false, 0⟩

/-- State effect and result of `_connect_to_device` (lines 149-198);
the returned `Bool` is the Python return value. -/
def connectAttempt (s : SState) : ConnRes → SState × Bool
  | ConnRes.linkFail => ({ s with connected := false }, false)
  | ConnRes.setupFail =>
    ({ s with counter := 0, connected := false, openLinks := s.openLinks + 1 }, false)
  | ConnRes.setupOk =>
    ({ s with counter := 0, connected := true, openLinks := s.openLinks + 1 }, true)

/-- One supervisor step (the loop body of `start`, lines 223-248, plus the
asynchronous `disconnection_handler`, lines 159-163).  Besides the next state
it returns the connection-status notifications delivered to observers (in
order) and the sleeps performed.  On a failed attempt the counter is
incremented; when it reaches `ceiling` (`max_reconnect_attempts`) the
extended cooldown is slept and the counter resets (lines 231-241). -/
def step (ceiling : ℕ) (s : SState) : Ev → SState × List Bool × List Sleep
  | Ev.drop =>
    if 0 < s.openLinks then
      ({ s with connected := false, openLinks := s.openLinks - 1 }, [false], [])
    else (s, [], [])
  | Ev.iter r =>
    if s.connected then (s, [], [])
    else
      match r with
      | none => (s, [], [Sleep.base])
      | some cr =>
        let p := connectAttempt s cr
        if p.2 then (p.1, [true], [])
        else if p.1.counter + 1 ≥ ceiling then
          ({ p.1 with counter := 0 }, [], [Sleep.extended])
        else ({ p.1 with counter := p.1.counter + 1 }, [], [Sleep.base])

/-- Run the supervisor over a sequence of events, accumulating the
connection-status notifications and the sleeps. -/
def runS (ceiling : ℕ) (s : SState) : List Ev → SState × List Bool × List Sleep
  | [] => (s, [], [])
  | e :: rest =>
    let p := step ceiling s e
    let q := runS ceiling p.1 rest
    (q.1, p.2.1 ++ q.2.1, p.2.2 ++ q.2.2)

/-- A trace of `n` consecutive failed connect attempts (the resolver finds
the device each time and `client.connect()` raises). -/
def failsTrace (n : ℕ) : List Ev := List.replicate n (Ev.iter (some ConnRes.linkFail))

/-- Observer callbacks as the dispatch loops see them: a callback receives the
event payload, may update the outside world `σ` (its own side effects), and
either returns normally (`none`) or raises with a message (`some e`). -/
def dispatchTo (α σ : Type) (x : α) (w : σ) :
    List (α → σ → σ × Option (List Char)) → σ × List (List Char)
  | [] => (w, [])
  | cb :: rest =>
    let r := cb x w
    let q := dispatchTo α σ x r.1 rest
    match r.2 with
    | none => q
    | some e => (q.1, e :: q.2)

/-- The world after applying the side effect of every callback in registration
order (reference semantics for `dispatchTo`). -/
def applyAll (α σ : Type) (x : α) (w : σ) : List (α → σ → σ × Option (List Char)) → σ
  | [] => w
  | cb :: rest => applyAll α σ x (cb x w).1 rest

/-- The faults raised along the way, each logged at the moment it is caught
(reference semantics for `dispatchTo`). -/
def raisedLogs (α σ : Type) (x : α) (w : σ) :
    List (α → σ → σ × Option (List Char)) → List (List Char)
  | [] => []
  | cb :: rest =>
    match (cb x w).2 with
    | some e => e :: raisedLogs α σ x (cb x w).1 rest
    | none => raisedLogs α σ x (cb x w).1 rest

/-- One dispatch cycle of the supervisor: `_process_uart_data` (lines
110-115) fans a telemetry line out to the data callbacks, then an
advertisement and a connection-status event are fanned out by
`_process_advertisement` (lines 86-92) and `_notify_connection_status`
(lines 78-84).  All three loops have the identical per-callback
`try/except/log` shape modelled by `dispatchTo`. -/
def dispatchCycle (σ : Type)
    (teleCbs : List (List Char → σ → σ × Option (List Char)))
    (advCbs : List (Device → σ → σ × Option (List Char)))
    (statusCbs : List (Bool → σ → σ × Option (List Char)))
    (line : List Char) (d : Device) (st : Bool) (w : σ) : σ × List (List Char) :=
  let p1 := dispatchTo (List Char) σ line w teleCbs
  let p2 := dispatchTo Device σ d p1.1 advCbs
  let p3 := dispatchTo Bool σ st p2.1 statusCbs
  (p3.1, p1.2 ++ p2.2 ++ p3.2)

/-- A boolean sequence strictly alternates starting from the opposite of `c`:
`AltFrom c l` holds when the entries of `l` are `!c, c, !c, ...` — the claimed "no
two consecutive equal notifications", strengthened by the starting polarity
(the first notification after construction is `true`). -/
def AltFrom : Bool → List Bool → Prop
  | _, [] => True
  | c, b :: l => b = !c ∧ AltFrom b l

/-- A character list whose head (if any) is not a digit; the continuation
shapes after a greedy digit run in the wire format. -/
def headNotDigit : List Char → Prop
  | [] => True
  | c :: _ => c.isDigit = false

/-! Lemmas about the reconnect loop of the supervisor. -/

theorem step_linkFail (ceiling c k : ℕ) (h : c + 1 < ceiling) :
    step ceiling ⟨c, false, k⟩ (Ev.iter (some ConnRes.linkFail)) =
      (⟨c + 1, false, k⟩, [], [Sleep.base]) := by
  simp only [step, connectAttempt, Bool.false_eq_true, if_false]
  rw [if_neg (by omega : ¬ c + 1 ≥ ceiling)]

theorem step_linkFail_ceiling (ceiling c k : ℕ) (h : c + 1 ≥ ceiling) :
    step ceiling ⟨c, false, k⟩ (Ev.iter (some ConnRes.linkFail)) =
      (⟨0, false, k⟩, [], [Sleep.extended]) := by
  simp only [step, connectAttempt, Bool.false_eq_true, if_false]
  rw [if_pos h]

theorem step_setupFail (ceiling c k : ℕ) (h : 2 ≤ ceiling) :
    step ceiling ⟨c, false, k⟩ (Ev.iter (some ConnRes.setupFail)) =
      (⟨1, false, k + 1⟩, [], [Sleep.base]) := by
  simp only [step, connectAttempt, Bool.false_eq_true, if_false]
  rw [if_neg (by omega : ¬ 0 + 1 ≥ ceiling)]

theorem step_drop_pos (ceiling c k : ℕ) (b : Bool) (h : 0 < k) :
    step ceiling ⟨c, b, k⟩ Ev.drop = (⟨c, false, k - 1⟩, [false], []) := by
  simp only [step]
  rw [if_pos h]

theorem step_drop_zero (ceiling c : ℕ) (b : Bool) :
    step ceiling ⟨c, b, 0⟩ Ev.drop = (⟨c, b, 0⟩, [], []) := by
  simp [step]

theorem step_connected (ceiling c k : ℕ) (r : Option ConnRes) :
    step ceiling ⟨c, true, k⟩ (Ev.iter r) = (⟨c, true, k⟩, [], []) := by
  simp [step]

theorem step_notFound (ceiling c k : ℕ) :
    step ceiling ⟨c, false, k⟩ (Ev.iter none) = (⟨c, false, k⟩, [], [Sleep.base]) := by
  simp [step]

theorem step_setupOk (ceiling c k : ℕ) :
    step ceiling ⟨c, false, k⟩ (Ev.iter (some ConnRes.setupOk)) =
      (⟨0, true, k + 1⟩, [true], []) := by
  simp [step, connectAttempt]

theorem runS_fails (ceiling : ℕ) : ∀ (n c k : ℕ), c + n < ceiling →
    runS ceiling ⟨c, false, k⟩ (failsTrace n) =
      (⟨c + n, false, k⟩, [], List.replicate n Sleep.base) := by
  intro n
  induction n with
  | zero => intro c k _; simp [failsTrace, runS]
  | succ m ih =>
    intro c k h
    have h1 : c + 1 + m < ceiling := by omega
    simp only [failsTrace, List.replicate_succ, runS,
      step_linkFail ceiling c k (by omega)]
    have h2 := ih (c + 1) k h1
    simp only [failsTrace] at h2
    simp [h2, List.replicate_succ]
    omega

theorem runS_append (ceiling : ℕ) (l1 l2 : List Ev) : ∀ s : SState,
    runS ceiling s (l1 ++ l2) =
      ((runS ceiling (runS ceiling s l1).1 l2).1,
        (runS ceiling s l1).2.1 ++ (runS ceiling (runS ceiling s l1).1 l2).2.1,
        (runS ceiling s l1).2.2 ++ (runS ceiling (runS ceiling s l1).1 l2).2.2) := by
  induction l1 with
  | nil => intro s; simp [runS]
  | cons e rest ih => intro s; simp [runS, ih]

theorem runS_setupFails (ceiling : ℕ) (h2 : 2 ≤ ceiling) : ∀ (n c k : ℕ), 1 ≤ n →
    runS ceiling ⟨c, false, k⟩ (List.replicate n (Ev.iter (some ConnRes.setupFail))) =
      (⟨1, false, k + n⟩, [], List.replicate n Sleep.base) := by
  intro n
  induction n with
  | zero => intro c k h; omega
  | succ m ih =>
    intro c k _
    rcases Nat.eq_zero_or_pos m with hm | hm
    · subst hm
      simp [runS, step_setupFail ceiling c k h2]
    · simp only [List.replicate_succ, runS, step_setupFail ceiling c k h2]
      have h3 := ih 1 (k + 1) hm
      simp [h3, List.replicate_succ]
      omega

/-- The extended-cooldown step of C1: after exactly `ceiling` consecutive
failed connect attempts the run ends back in the initial state, having slept
`ceiling - 1` base delays and exactly one extended cooldown. -/
theorem runS_fails_ceiling (ceiling : ℕ) (h : 0 < ceiling) :
    runS ceiling initState (failsTrace ceiling) =
      (initState, [], List.replicate (ceiling - 1) Sleep.base ++ [Sleep.extended]) := by
  obtain ⟨m, rfl⟩ : ∃ m, ceiling = m + 1 := ⟨ceiling - 1, by omega⟩
  have hsplit : failsTrace (m + 1) = failsTrace m ++ [Ev.iter (some ConnRes.linkFail)] := by
    simp [failsTrace, List.replicate_succ']
  have h1 := runS_fails (m + 1) m 0 0 (by omega)
  rw [hsplit, runS_append]
  simp only [initState]
  rw [show (0 : ℕ) + m = m by omega] at h1
  rw [h1]
  simp [runS, step_linkFail_ceiling (m + 1) m 0 (by omega)]

/-! Lemmas about connection-status notification alternation. -/

theorem altFrom_chain : ∀ (l : List Bool) (c : Bool), AltFrom c l →
    List.Chain' (fun a b => a ≠ b) l := by
  intro l
  induction l with
  | nil => intro c _; simp
  | cons b t ih =>
    intro c h
    obtain ⟨hb, ht⟩ := h
    cases t with
    | nil => simp
    | cons b2 t2 =>
      refine List.chain'_cons.mpr ⟨?_, ih b ht⟩
      rw [ht.1, hb]
      simp

theorem altFrom_runS (ceiling : ℕ) : ∀ (evs : List Ev) (s : SState),
    s.openLinks = (if s.connected then 1 else 0) →
    (∀ e ∈ evs, e ≠ Ev.iter (some ConnRes.setupFail)) →
    AltFrom s.connected (runS ceiling s evs).2.1 := by
  intro evs
  induction evs with
  | nil => intro s _ _; simp [runS, AltFrom]
  | cons e rest ih =>
    rintro ⟨c, b, k⟩ hgood hns
    simp only at hgood
    have hrest : ∀ x ∈ rest, x ≠ Ev.iter (some ConnRes.setupFail) :=
      fun x hx => hns x (List.mem_cons_of_mem e hx)
    cases e with
    | drop =>
      cases b with
      | false =>
        have hk : k = 0 := by simpa using hgood
        subst hk
        simp only [runS, step_drop_zero, List.nil_append]
        simpa using ih ⟨c, false, 0⟩ (by simp) hrest
      | true =>
        have hk : k = 1 := by simpa using hgood
        subst hk
        simp only [runS, step_drop_pos ceiling c 1 true (by omega), List.singleton_append, AltFrom]
        refine ⟨by decide, ?_⟩
        simpa using ih ⟨c, false, 0⟩ (by simp) hrest
    | iter r =>
      cases b with
      | true =>
        simp only [runS, step_connected, List.nil_append]
        simpa using ih ⟨c, true, k⟩ hgood hrest
      | false =>
        have hk : k = 0 := by simpa using hgood
        subst hk
        cases r with
        | none =>
          simp only [runS, step_notFound, List.nil_append]
          simpa using ih ⟨c, false, 0⟩ (by simp) hrest
        | some cr =>
          cases cr with
          | linkFail =>
            by_cases hceil : c + 1 ≥ ceiling
            · simp only [runS, step_linkFail_ceiling ceiling c 0 hceil, List.nil_append]
              simpa using ih ⟨0, false, 0⟩ (by simp) hrest
            · simp only [runS, step_linkFail ceiling c 0 (by omega), List.nil_append]
              simpa using ih ⟨c + 1, false, 0⟩ (by simp) hrest
          | setupFail =>
            exact absurd rfl (hns (Ev.iter (some ConnRes.setupFail)) (List.mem_cons_self _ _))
          | setupOk =>
            simp only [runS, step_setupOk, List.singleton_append, AltFrom]
            refine ⟨by decide, ?_⟩
            simpa using ih ⟨0, true, 0 + 1⟩ (by simp) hrest

/-! Lemmas about observer dispatch. -/

theorem dispatchTo_complete (α σ : Type) (x : α) :
    ∀ (cbs : List (α → σ → σ × Option (List Char))) (w : σ),
    dispatchTo α σ x w cbs = (applyAll α σ x w cbs, raisedLogs α σ x w cbs) := by
  intro cbs
  induction cbs with
  | nil => intro w; simp [dispatchTo, applyAll, raisedLogs]
  | cons cb rest ih =>
    intro w
    simp only [dispatchTo, applyAll, raisedLogs]
    cases h : (cb x w).2 with
    | none => simp [h, ih]
    | some e => simp [h, ih]

/-! Claim theorems. -/

/-- C1.  In the reconnect loop of the supervisor, any run of `N` consecutive failed
connect attempts with `N` below the ceiling sleeps only the base
`reconnect_delay` (never the extended cooldown) and leaves the counter at `N`;
when `N` reaches the ceiling, exactly one extended cooldown is inserted, the
counter resets to `0`, and the run ends in the initial state, so the next
attempt proceeds as if it were the first. -/
theorem C1_reconnect_backoff (ceiling n : ℕ) :
    (n < ceiling →
      runS ceiling initState (failsTrace n) =
        (⟨n, false, 0⟩, [], List.replicate n Sleep.base))
    ∧ (0 < ceiling →
      runS ceiling initState (failsTrace ceiling) =
        (initState, [], List.replicate (ceiling - 1) Sleep.base ++ [Sleep.extended])) := by
  constructor
  · intro h
    have h1 := runS_fails ceiling n 0 0 (by omega)
    simpa [initState] using h1
  · exact runS_fails_ceiling ceiling

/-- Witness for C1 at ceiling 3: two failures sleep two base delays and leave
the counter at 2; three failures insert exactly one extended cooldown and
return the supervisor to its initial state. -/
theorem C1_reconnect_backoff_w :
    runS 3 initState (failsTrace 2) =
      (⟨2, false, 0⟩, [], List.replicate 2 Sleep.base)
    ∧ runS 3 initState (failsTrace 3) =
      (initState, [], List.replicate (3 - 1) Sleep.base ++ [Sleep.extended]) :=
  ⟨(C1_reconnect_backoff 3 2).1 (by decide), (C1_reconnect_backoff 3 2).2 (by decide)⟩

/-- C9.  `_connect_to_device` resets the reconnect counter as soon as the
link-level connect succeeds, before service discovery and subscription; an
attempt that establishes the link but fails during setup therefore returns
failure with the counter already reset, so in the loop each such failure
drives the counter from 0 to 1, and any run of them keeps the counter at 1
with only base-delay sleeps — the ceiling (at its meaningful values ≥ 2) is
never reached and no extended cooldown occurs. -/
theorem C9_setup_failure_resets (ceiling n c k : ℕ) (h2 : 2 ≤ ceiling) (hn : 1 ≤ n) :
    ((connectAttempt ⟨c, false, k⟩ ConnRes.setupFail).2 = false
      ∧ (connectAttempt ⟨c, false, k⟩ ConnRes.setupFail).1.counter = 0)
    ∧ runS ceiling ⟨c, false, k⟩ (List.replicate n (Ev.iter (some ConnRes.setupFail))) =
        (⟨1, false, k + n⟩, [], List.replicate n Sleep.base) := by
  exact ⟨⟨rfl, rfl⟩, runS_setupFails ceiling h2 n c k hn⟩

/-- Witness for C9: three consecutive setup-phase failures under the default
ceiling 5 leave the counter at 1 and sleep only base delays. -/
theorem C9_setup_failure_resets_w :
    ((connectAttempt ⟨0, false, 0⟩ ConnRes.setupFail).2 = false
      ∧ (connectAttempt ⟨0, false, 0⟩ ConnRes.setupFail).1.counter = 0)
    ∧ runS 5 ⟨0, false, 0⟩ (List.replicate 3 (Ev.iter (some ConnRes.setupFail))) =
        (⟨1, false, 0 + 3⟩, [], List.replicate 3 Sleep.base) :=
  C9_setup_failure_resets 5 3 0 0 (by decide) (by decide)

/-- C2, counterexample.  The claim "connection-status notifications strictly
alternate across every sequence of connect and disconnect events" is false on
the code: an attempt whose link-level connect succeeds but whose service
setup raises emits no `true` notification (line 192 is never reached), yet
the disconnection callback of the established link later fires and emits `false`
(line 162).  Two such attempts in a row deliver `[false, false]` to the
observers. -/
theorem C2_alternation_cex :
    (runS 5 initState [Ev.iter (some ConnRes.setupFail), Ev.drop,
        Ev.iter (some ConnRes.setupFail), Ev.drop]).2.1 = [false, false]
    ∧ ¬ List.Chain' (fun a b => a ≠ b)
        (runS 5 initState [Ev.iter (some ConnRes.setupFail), Ev.drop,
          Ev.iter (some ConnRes.setupFail), Ev.drop]).2.1 := by
  refine ⟨by decide, ?_⟩
  intro hch
  rw [show (runS 5 initState [Ev.iter (some ConnRes.setupFail), Ev.drop,
    Ev.iter (some ConnRes.setupFail), Ev.drop]).2.1 = [false, false] by decide] at hch
  exact (List.chain'_cons.mp hch).1 rfl

/-- C2, amended.  Over every event sequence containing no setup-phase
failure (every attempt that establishes the link also completes service
setup), connection-status notifications strictly alternate
`true/false/true/…`: the sequence starts with `true` and never repeats a
value (`AltFrom false`), hence no two adjacent notifications are equal. -/
theorem C2_alternation_amended (ceiling : ℕ) (evs : List Ev)
    (h : ∀ e ∈ evs, e ≠ Ev.iter (some ConnRes.setupFail)) :
    AltFrom false (runS ceiling initState evs).2.1
    ∧ List.Chain' (fun a b => a ≠ b) (runS ceiling initState evs).2.1 := by
  have ha := altFrom_runS ceiling evs initState (by simp [initState]) h
  exact ⟨ha, altFrom_chain _ _ ha⟩

/-- Witness for the amended C2: a connect, a drop, a failed reconnect and a
successful reconnect notify `[true, false, true]`. -/
theorem C2_alternation_amended_w :
    AltFrom false (runS 5 initState [Ev.iter (some ConnRes.setupOk), Ev.drop,
      Ev.iter (some ConnRes.linkFail), Ev.iter (some ConnRes.setupOk)]).2.1
    ∧ List.Chain' (fun a b => a ≠ b) (runS 5 initState [Ev.iter (some ConnRes.setupOk), Ev.drop,
      Ev.iter (some ConnRes.linkFail), Ev.iter (some ConnRes.setupOk)]).2.1 :=
  C2_alternation_amended 5 _ (by decide)

/-- C5.  A dispatch loop never lets an observer fault escape and never stops
early: its result is exactly the world obtained by applying the effect of
every callback in registration order, paired with the log of every fault raised along
the way; and in a full cycle a telemetry observer that raises on every call
does not prevent the advertisement and connection-status observers from
receiving their events (their world effects happen and only the telemetry
fault is logged). -/
theorem C5_observer_isolation :
    (∀ (α σ : Type) (x : α) (w : σ) (cbs : List (α → σ → σ × Option (List Char))),
      dispatchTo α σ x w cbs = (applyAll α σ x w cbs, raisedLogs α σ x w cbs))
    ∧ dispatchCycle (List (List Char))
        [fun _ w => (w, some ['b'])]
        [fun _ w => (w ++ [['a']], none)]
        [fun _ w => (w ++ [['s']], none)]
        ['x'] ⟨none, []⟩ true []
      = ([['a'], ['s']], [['b']]) :=
  ⟨fun α σ x w cbs => dispatchTo_complete α σ x cbs w, rfl⟩

/-- C10.  `process_ble_data` always advances `last_update` to the current
time, even on a line matching none of the patterns, while any field whose
pattern is absent keeps its previous value. -/
theorem C10_last_update_frame (now : ℚ) (r : HubReadings) (s : List Char) :
    (process_ble_data now r s).last_update = some now
    ∧ (searchFloat 'T' s = none → (process_ble_data now r s).temperature = r.temperature)
    ∧ (searchFloat 'H' s = none → (process_ble_data now r s).humidity = r.humidity)
    ∧ (searchLight 'L' s = none →
        (process_ble_data now r s).light_intensity = r.light_intensity) := by
  refine ⟨?_, ?_, ?_, ?_⟩
  · simp only [process_ble_data]
  · intro hT
    simp only [process_ble_data, hT]
    cases searchFloat 'H' s <;> cases searchLight 'L' s <;> rfl
  · intro hH
    simp only [process_ble_data, hH]
    cases searchFloat 'T' s <;> cases searchLight 'L' s <;> rfl
  · intro hL
    simp only [process_ble_data, hL]
    cases searchFloat 'T' s <;> cases searchFloat 'H' s <;> rfl

/-- Witness for C10: a line with no telemetry patterns leaves all three
fields of the aggregate unchanged and still sets `last_update`. -/
theorem C10_last_update_frame_w :
    (process_ble_data 7 ⟨some 1, none, none, none⟩ ('h' :: 'i' :: [])).last_update = some 7
    ∧ (process_ble_data 7 ⟨some 1, none, none, none⟩ ('h' :: 'i' :: [])).temperature = some 1
    ∧ (process_ble_data 7 ⟨some 1, none, none, none⟩ ('h' :: 'i' :: [])).humidity = none
    ∧ (process_ble_data 7 ⟨some 1, none, none, none⟩ ('h' :: 'i' :: [])).light_intensity = none :=
  ⟨(C10_last_update_frame 7 ⟨some 1, none, none, none⟩ ('h' :: 'i' :: [])).1,
    (C10_last_update_frame 7 ⟨some 1, none, none, none⟩ ('h' :: 'i' :: [])).2.1 (by decide),
    (C10_last_update_frame 7 ⟨some 1, none, none, none⟩ ('h' :: 'i' :: [])).2.2.1 (by decide),
    (C10_last_update_frame 7 ⟨some 1, none, none, none⟩ ('h' :: 'i' :: [])).2.2.2 (by decide)⟩

/-- Leftmost search for `key:` cannot succeed on a string with no `key:`
substring. -/
theorem searchKey_none_of_no_sub (m : List Char → Option (List Char)) (key : Char) :
    ∀ s : List Char, containsChars [key, ':'] s = false → searchKey m key s = none := by
  intro s
  induction s with
  | nil => intro _; rfl
  | cons c rest ih =>
    intro h
    simp only [containsChars, Bool.or_eq_false_iff] at h
    obtain ⟨h1, h2⟩ := h
    by_cases hcond : c = key ∧ rest.head? = some ':'
    · exfalso
      obtain ⟨hck, hh⟩ := hcond
      cases rest with
      | nil => simp at hh
      | cons c2 r2 =>
        simp only [List.head?] at hh
        injection hh with hh2
        subst hck
        subst hh2
        simp [startsWithChars] at h1
    · simp only [searchKey, if_neg hcond]
      exact ih h2

/-- C4.  A frame that is not valid UTF-8 makes the decode step fail; the
error is caught inside the notification handler, which logs the raw frame
and returns normally (nothing propagates — the handler is a total function),
and subsequent frames are still processed. -/
theorem C4_decode_error_contained (bs : List ℕ) (rest : List (List ℕ))
    (h : utf8Decode bs = none) :
    notification_handler bs = HandlerResult.rawLogged bs
    ∧ processFrames (bs :: rest) = HandlerResult.rawLogged bs :: processFrames rest := by
  constructor
  · simp [notification_handler, h]
  · simp [processFrames, notification_handler, h]

/-- Witness for C4: the frame `[0xFF]` is malformed UTF-8; it is logged raw
and the following valid frame is still processed. -/
theorem C4_decode_error_contained_w :
    notification_handler [0xFF] = HandlerResult.rawLogged [0xFF]
    ∧ processFrames ([0xFF] :: [[0x54]]) =
        HandlerResult.rawLogged [0xFF] :: processFrames [[0x54]] :=
  C4_decode_error_contained [0xFF] [[0x54]] (by decide)

/-- C3.  The three telemetry fields are extracted independently: each output
field of `parseLine` is exactly the result of the search for its own pattern,
regardless of the other two patterns; and a line containing none of the
substrings `T:`, `H:`, `L:` parses to the all-absent reading (never an
error — the function is total). -/
theorem C3_fields_independent (s : List Char) :
    ((parseLine s).temperature = Option.map floatOfChars (searchFloat 'T' s)
      ∧ (parseLine s).humidity = Option.map floatOfChars (searchFloat 'H' s)
      ∧ (parseLine s).light = Option.map floatOfChars (searchLight 'L' s))
    ∧ (containsChars ['T', ':'] s = false → containsChars ['H', ':'] s = false →
        containsChars ['L', ':'] s = false → parseLine s = ⟨none, none, none⟩) := by
  constructor
  · refine ⟨?_, ?_, ?_⟩ <;>
    · simp only [parseLine]
      cases searchFloat 'T' s <;> cases searchFloat 'H' s <;> cases searchLight 'L' s <;> rfl
  · intro hT hH hL
    simp only [parseLine, searchFloat, searchLight,
      searchKey_none_of_no_sub matchFloatAt 'T' s hT,
      searchKey_none_of_no_sub matchFloatAt 'H' s hH,
      searchKey_none_of_no_sub matchLightAt 'L' s hL]

/-- Witness for C3: a patternless line parses to the all-absent reading. -/
theorem C3_fields_independent_w :
    parseLine ('h' :: 'i' :: []) = ⟨none, none, none⟩ :=
  (C3_fields_independent ('h' :: 'i' :: [])).2 (by decide) (by decide) (by decide)

/-- C6.  The two resolver paths: (fast path) when an address is set and the
direct lookup hits, the hit is returned immediately, the state is unchanged,
and the result does not depend on the scan at all (it is the same for every
scan list); (name path) when the address lookup yields nothing and a name is
set, the result is the first scanned device passing the name test; and the
name test holds exactly for devices advertising a non-empty name containing
the target as a case-insensitive substring — in particular target
`CIRCUITPY23c6` matches a device advertising `circuitpy23c6-rev2`. -/
theorem C6_resolver_paths :
    (∀ (st : ConnCfg) (lookup : List Char → Option Device) (devs : List Device) (d : Device),
      pyTruthy st.device_address = true →
      lookup (st.device_address.getD []) = some d →
      find_device st ⟨lookup, devs⟩ = (some d, st))
    ∧ (∀ (st : ConnCfg) (env : BleEnv),
      addrLookup st env = none → pyTruthy st.device_name = true →
      (find_device st env).1 = env.discovered.find? (nameMatch (st.device_name.getD [])))
    ∧ (∀ (target : List Char) (d : Device),
      nameMatch target d = true ↔
        ∃ nm, d.name = some nm ∧ nm ≠ [] ∧
          containsChars (lowerChars target) (lowerChars nm) = true)
    ∧ nameMatch ("CIRCUITPY23c6").data ⟨some ("circuitpy23c6-rev2").data, ("AA:BB").data⟩
        = true := by
  refine ⟨?_, ?_, ?_, by decide⟩
  · intro st lookup devs d h1 h2
    simp [find_device, addrLookup, h1, h2]
  · intro st env h1 h2
    simp only [find_device, h1, h2, if_true]
    cases hf : env.discovered.find? (nameMatch (st.device_name.getD [])) <;> simp [hf]
  · intro target d
    cases hn : d.name with
    | none => simp [nameMatch, hn]
    | some nm =>
      simp [nameMatch, hn, List.isEmpty_iff]

/-- Witness for C6: a concrete fast-path hit with an empty scan list, a
concrete name-path resolution, and the scenario match. -/
theorem C6_resolver_paths_w :
    find_device ⟨some ['N'], some ['A'], 0, 0, 0, 5⟩
        ⟨fun a => if a = ['A'] then some ⟨none, ['A']⟩ else none, []⟩
      = (some ⟨none, ['A']⟩, ⟨some ['N'], some ['A'], 0, 0, 0, 5⟩)
    ∧ (find_device ⟨some ['n'], none, 0, 0, 0, 5⟩ ⟨fun _ => none, [⟨some ['N'], ['B']⟩]⟩).1
      = ([⟨some ['N'], ['B']⟩] : List Device).find? (nameMatch ((some ['n']).getD []))
    ∧ nameMatch ("CIRCUITPY23c6").data ⟨some ("circuitpy23c6-rev2").data, ("AA:BB").data⟩
        = true :=
  ⟨C6_resolver_paths.1 ⟨some ['N'], some ['A'], 0, 0, 0, 5⟩
      (fun a => if a = ['A'] then some ⟨none, ['A']⟩ else none) [] ⟨none, ['A']⟩
      (by decide) (by decide),
    C6_resolver_paths.2.1 ⟨some ['n'], none, 0, 0, 0, 5⟩ ⟨fun _ => none, [⟨some ['N'], ['B']⟩]⟩
      (by decide) (by decide),
    C6_resolver_paths.2.2.2⟩

/-- C8.  A successful name-based resolution writes the address of the matched
device into `device_address` and changes nothing else: the name, the
timeouts, the delay and the ceiling are all preserved. -/
theorem C8_address_cached (st : ConnCfg) (env : BleEnv) (d : Device)
    (h1 : addrLookup st env = none)
    (h2 : pyTruthy st.device_name = true)
    (h3 : env.discovered.find? (nameMatch (st.device_name.getD [])) = some d) :
    find_device st env = (some d, { st with device_address := some d.address })
    ∧ (find_device st env).2.device_address = some d.address
    ∧ (find_device st env).2.device_name = st.device_name
    ∧ (find_device st env).2.scan_timeout = st.scan_timeout
    ∧ (find_device st env).2.connection_timeout = st.connection_timeout
    ∧ (find_device st env).2.reconnect_delay = st.reconnect_delay
    ∧ (find_device st env).2.max_reconnect_attempts = st.max_reconnect_attempts := by
  have hf : find_device st env = (some d, { st with device_address := some d.address }) := by
    simp [find_device, h1, h2, h3]
  rw [hf]
  exact ⟨rfl, rfl, rfl, rfl, rfl, rfl, rfl⟩

/-- Witness for C8: the scenario resolution caches the matched address and
leaves every other configuration field as constructed. -/
theorem C8_address_cached_w :
    find_device ⟨some ("CIRCUITPY23c6").data, none, 0, 0, 0, 5⟩
        ⟨fun _ => none, [⟨some ("circuitpy23c6-rev2").data, ("AA").data⟩]⟩
      = (some ⟨some ("circuitpy23c6-rev2").data, ("AA").data⟩,
          { (⟨some ("CIRCUITPY23c6").data, none, 0, 0, 0, 5⟩ : ConnCfg) with
            device_address := some (⟨some ("circuitpy23c6-rev2").data,
              ("AA").data⟩ : Device).address })
    ∧ (find_device ⟨some ("CIRCUITPY23c6").data, none, 0, 0, 0, 5⟩
        ⟨fun _ => none, [⟨some ("circuitpy23c6-rev2").data, ("AA").data⟩]⟩).2.device_address
      = some (⟨some ("circuitpy23c6-rev2").data, ("AA").data⟩ : Device).address
    ∧ (find_device ⟨some ("CIRCUITPY23c6").data, none, 0, 0, 0, 5⟩
        ⟨fun _ => none, [⟨some ("circuitpy23c6-rev2").data, ("AA").data⟩]⟩).2.device_name
      = (⟨some ("CIRCUITPY23c6").data, none, 0, 0, 0, 5⟩ : ConnCfg).device_name
    ∧ (find_device ⟨some ("CIRCUITPY23c6").data, none, 0, 0, 0, 5⟩
        ⟨fun _ => none, [⟨some ("circuitpy23c6-rev2").data, ("AA").data⟩]⟩).2.scan_timeout
      = (⟨some ("CIRCUITPY23c6").data, none, 0, 0, 0, 5⟩ : ConnCfg).scan_timeout
    ∧ (find_device ⟨some ("CIRCUITPY23c6").data, none, 0, 0, 0, 5⟩
        ⟨fun _ => none, [⟨some ("circuitpy23c6-rev2").data, ("AA").data⟩]⟩).2.connection_timeout
      = (⟨some ("CIRCUITPY23c6").data, none, 0, 0, 0, 5⟩ : ConnCfg).connection_timeout
    ∧ (find_device ⟨some ("CIRCUITPY23c6").data, none, 0, 0, 0, 5⟩
        ⟨fun _ => none, [⟨some ("circuitpy23c6-rev2").data, ("AA").data⟩]⟩).2.reconnect_delay
      = (⟨some ("CIRCUITPY23c6").data, none, 0, 0, 0, 5⟩ : ConnCfg).reconnect_delay
    ∧ (find_device ⟨some ("CIRCUITPY23c6").data, none, 0, 0, 0, 5⟩
        ⟨fun _ => none, [⟨some ("circuitpy23c6-rev2").data, ("AA").data⟩]⟩).2.max_reconnect_attempts
      = (⟨some ("CIRCUITPY23c6").data, none, 0, 0, 0, 5⟩ : ConnCfg).max_reconnect_attempts :=
  C8_address_cached ⟨some ("CIRCUITPY23c6").data, none, 0, 0, 0, 5⟩
    ⟨fun _ => none, [⟨some ("circuitpy23c6-rev2").data, ("AA").data⟩]⟩
    ⟨some ("circuitpy23c6-rev2").data, ("AA").data⟩
    (by decide) (by decide) (by decide)

/-! Lemmas for the format/parse round trip (C7). -/

theorem digitChar_isDigit (d : ℕ) (h : d < 10) : (Nat.digitChar d).isDigit = true := by
  interval_cases d <;> decide

theorem digToNat_digitChar (d : ℕ) (h : d < 10) : digToNat (Nat.digitChar d) = d := by
  interval_cases d <;> decide

theorem ne_of_isDigit (c k : Char) (hc : c.isDigit = true) (hk : k.isDigit = false) :
    c ≠ k := by
  intro he
  rw [he, hk] at hc
  cases hc

theorem natCharsAux_digits : ∀ (fuel n : ℕ), ∀ c ∈ natCharsAux fuel n, c.isDigit = true := by
  intro fuel
  induction fuel with
  | zero => intro n c hc; simp [natCharsAux] at hc
  | succ f ih =>
    intro n c hc
    simp only [natCharsAux] at hc
    by_cases h : n < 10
    · rw [if_pos h] at hc
      simp only [List.mem_singleton] at hc
      subst hc
      exact digitChar_isDigit n h
    · rw [if_neg h] at hc
      rcases List.mem_append.mp hc with h1 | h1
      · exact ih _ c h1
      · simp only [List.mem_singleton] at h1
        subst h1
        exact digitChar_isDigit _ (Nat.mod_lt _ (by norm_num))

theorem natCharsAux_ne_nil (fuel n : ℕ) (h : 0 < fuel) : natCharsAux fuel n ≠ [] := by
  cases fuel with
  | zero => omega
  | succ f =>
    simp only [natCharsAux]
    by_cases hn : n < 10
    · rw [if_pos hn]; simp
    · rw [if_neg hn]; simp

theorem natOfDigits_append_one (xs : List Char) (c : Char) :
    natOfDigits (xs ++ [c]) = 10 * natOfDigits xs + digToNat c := by
  simp [natOfDigits, List.foldl_append]

theorem natOfDigits_natCharsAux : ∀ (fuel n : ℕ), n < fuel →
    natOfDigits (natCharsAux fuel n) = n := by
  intro fuel
  induction fuel with
  | zero => intro n h; omega
  | succ f ih =>
    intro n h
    simp only [natCharsAux]
    by_cases hn : n < 10
    · rw [if_pos hn]
      simp [natOfDigits, digToNat_digitChar n hn]
    · rw [if_neg hn]
      have hdiv : n / 10 < f := by
        have h1 : n / 10 < n := Nat.div_lt_self (by omega) (by norm_num)
        omega
      rw [natOfDigits_append_one, ih _ hdiv, digToNat_digitChar _ (Nat.mod_lt _ (by norm_num))]
      omega

theorem natChars_digits (n : ℕ) : ∀ c ∈ natChars n, c.isDigit = true :=
  natCharsAux_digits (n + 1) n

theorem natChars_ne_nil (n : ℕ) : natChars n ≠ [] :=
  natCharsAux_ne_nil (n + 1) n (by omega)

theorem natOfDigits_natChars (n : ℕ) : natOfDigits (natChars n) = n :=
  natOfDigits_natCharsAux (n + 1) n (by omega)

theorem takeWhile_digits (ds : List Char) (rest : List Char)
    (h : ∀ c ∈ ds, c.isDigit = true) (hr : headNotDigit rest) :
    (ds ++ rest).takeWhile Char.isDigit = ds := by
  induction ds with
  | nil =>
    cases rest with
    | nil => rfl
    | cons c t =>
      simp only [headNotDigit] at hr
      simp [List.takeWhile_cons, hr]
  | cons d ds2 ih =>
    have hd : d.isDigit = true := h d (List.mem_cons_self _ _)
    have h2 : ∀ c ∈ ds2, c.isDigit = true := fun c hc => h c (List.mem_cons_of_mem d hc)
    simp [List.takeWhile_cons, hd, ih h2]

theorem dropWhile_digits (ds : List Char) (rest : List Char)
    (h : ∀ c ∈ ds, c.isDigit = true) (hr : headNotDigit rest) :
    (ds ++ rest).dropWhile Char.isDigit = rest := by
  induction ds with
  | nil =>
    cases rest with
    | nil => rfl
    | cons c t =>
      simp only [headNotDigit] at hr
      simp [List.dropWhile_cons, hr]
  | cons d ds2 ih =>
    have hd : d.isDigit = true := h d (List.mem_cons_self _ _)
    have h2 : ∀ c ∈ ds2, c.isDigit = true := fun c hc => h c (List.mem_cons_of_mem d hc)
    simp [List.dropWhile_cons, hd, ih h2]

theorem matchFloatAt_run (ds1 ds2 rest : List Char)
    (h1 : ∀ c ∈ ds1, c.isDigit = true) (hn1 : ds1 ≠ [])
    (h2 : ∀ c ∈ ds2, c.isDigit = true) (hn2 : ds2 ≠ [])
    (hr : headNotDigit rest) :
    matchFloatAt (ds1 ++ '.' :: (ds2 ++ rest)) = some (ds1 ++ '.' :: ds2) := by
  have ht : (ds1 ++ '.' :: (ds2 ++ rest)).takeWhile Char.isDigit = ds1 :=
    takeWhile_digits ds1 ('.' :: (ds2 ++ rest)) h1 (by simp [headNotDigit])
  have hd : (ds1 ++ '.' :: (ds2 ++ rest)).dropWhile Char.isDigit = '.' :: (ds2 ++ rest) :=
    dropWhile_digits ds1 ('.' :: (ds2 ++ rest)) h1 (by simp [headNotDigit])
  have ht2 : (ds2 ++ rest).takeWhile Char.isDigit = ds2 := takeWhile_digits ds2 rest h2 hr
  simp only [matchFloatAt, ht, hd, ht2]
  rw [if_neg hn1, if_neg hn2]

theorem matchLightAt_run (ds1 ds2 rest : List Char)
    (h1 : ∀ c ∈ ds1, c.isDigit = true) (hn1 : ds1 ≠ [])
    (h2 : ∀ c ∈ ds2, c.isDigit = true) (hn2 : ds2 ≠ [])
    (hr : headNotDigit rest) :
    matchLightAt (ds1 ++ '.' :: (ds2 ++ rest)) = some (ds1 ++ '.' :: ds2) := by
  have ht : (ds1 ++ '.' :: (ds2 ++ rest)).takeWhile Char.isDigit = ds1 :=
    takeWhile_digits ds1 ('.' :: (ds2 ++ rest)) h1 (by simp [headNotDigit])
  have hd : (ds1 ++ '.' :: (ds2 ++ rest)).dropWhile Char.isDigit = '.' :: (ds2 ++ rest) :=
    dropWhile_digits ds1 ('.' :: (ds2 ++ rest)) h1 (by simp [headNotDigit])
  have ht2 : (ds2 ++ rest).takeWhile Char.isDigit = ds2 := takeWhile_digits ds2 rest h2 hr
  simp only [matchLightAt, ht, hd, ht2]
  rw [if_neg hn1, if_neg hn2]

theorem searchKey_skip (m : List Char → Option (List Char)) (key : Char) :
    ∀ (pre s : List Char), (∀ c ∈ pre, c ≠ key) →
    searchKey m key (pre ++ s) = searchKey m key s := by
  intro pre
  induction pre with
  | nil => intro s _; rfl
  | cons c pre2 ih =>
    intro s h
    have hck : c ≠ key := h c (List.mem_cons_self _ _)
    have h2 : ∀ x ∈ pre2, x ≠ key := fun x hx => h x (List.mem_cons_of_mem c hx)
    simp only [List.cons_append, searchKey]
    rw [if_neg (by intro hc; exact hck hc.1)]
    exact ih s h2

theorem searchKey_hit (m : List Char → Option (List Char)) (key : Char)
    (r2 g : List Char) (h : m r2 = some g) :
    searchKey m key (key :: ':' :: r2) = some g := by
  simp [searchKey, h]

theorem fmt2_digits_or_dot (n : ℕ) : ∀ c ∈ fmt2 n, c.isDigit = true ∨ c = '.' := by
  intro c hc
  simp only [fmt2] at hc
  rcases List.mem_append.mp hc with h1 | h1
  · exact Or.inl (natChars_digits _ c h1)
  · rcases List.mem_cons.mp h1 with h2 | h2
    · exact Or.inr h2
    · rcases List.mem_cons.mp h2 with h3 | h3
      · subst h3; exact Or.inl (digitChar_isDigit _ (by omega))
      · rcases List.mem_cons.mp h3 with h4 | h4
        · subst h4; exact Or.inl (digitChar_isDigit _ (Nat.mod_lt _ (by norm_num)))
        · simp at h4

theorem fmt2_ne_key (n : ℕ) (k : Char) (hk : k.isDigit = false) (hdot : k ≠ '.') :
    ∀ c ∈ fmt2 n, c ≠ k := by
  intro c hc
  rcases fmt2_digits_or_dot n c hc with h | h
  · exact ne_of_isDigit c k h hk
  · subst h; exact fun he => hdot he.symm

theorem fmt2_assoc (n : ℕ) (rest : List Char) :
    fmt2 n ++ rest =
      natChars (n / 100) ++ '.' ::
        ([Nat.digitChar (n % 100 / 10), Nat.digitChar (n % 100 % 10)] ++ rest) := by
  simp [fmt2]

theorem twoDig_digits (n : ℕ) :
    ∀ c ∈ [Nat.digitChar (n % 100 / 10), Nat.digitChar (n % 100 % 10)], c.isDigit = true := by
  intro c hc
  rcases List.mem_cons.mp hc with h | h
  · subst h; exact digitChar_isDigit _ (by omega)
  · rcases List.mem_cons.mp h with h2 | h2
    · subst h2; exact digitChar_isDigit _ (Nat.mod_lt _ (by norm_num))
    · simp at h2

theorem headNotDigit_comma (xs : List Char) : headNotDigit (',' :: xs) := rfl

theorem headNotDigit_dot (xs : List Char) : headNotDigit ('.' :: xs) := rfl

theorem pre_ne_key (n : ℕ) (a b k : Char) (ha : a ≠ k) (hb : b ≠ k)
    (hk : k.isDigit = false) (hdot : k ≠ '.') (hcom : (',' : Char) ≠ k) :
    ∀ c ∈ a :: b :: fmt2 n ++ [','], c ≠ k := by
  intro c hc
  rcases List.mem_cons.mp hc with rfl | h1
  · exact ha
  rcases List.mem_cons.mp h1 with rfl | h2
  · exact hb
  rcases List.mem_append.mp h2 with h3 | h3
  · exact fmt2_ne_key n k hk hdot c h3
  · rw [List.mem_singleton] at h3
    subst h3
    exact hcom

theorem searchT_line (t h l : ℕ) :
    searchFloat 'T' (get_sensor_line t h l) = some (fmt2 t) := by
  have hmT : matchFloatAt (fmt2 t ++ ',' :: 'H' :: ':' :: (fmt2 h ++ ',' :: 'L' :: ':' :: fmt2 l))
      = some (fmt2 t) := by
    have h0 := matchFloatAt_run (natChars (t / 100))
      [Nat.digitChar (t % 100 / 10), Nat.digitChar (t % 100 % 10)]
      (',' :: 'H' :: ':' :: (fmt2 h ++ ',' :: 'L' :: ':' :: fmt2 l))
      (natChars_digits _) (natChars_ne_nil _) (twoDig_digits t) (by simp) (headNotDigit_comma _)
    simpa [fmt2, List.append_assoc] using h0
  simp only [searchFloat, get_sensor_line]
  exact searchKey_hit _ _ _ _ hmT

theorem searchH_line (t h l : ℕ) :
    searchFloat 'H' (get_sensor_line t h l) = some (fmt2 h) := by
  have hline : get_sensor_line t h l =
      ('T' :: ':' :: fmt2 t ++ [',']) ++
        ('H' :: ':' :: (fmt2 h ++ ',' :: 'L' :: ':' :: fmt2 l)) := by
    simp [get_sensor_line]
  have hmH : matchFloatAt (fmt2 h ++ ',' :: 'L' :: ':' :: fmt2 l) = some (fmt2 h) := by
    have h0 := matchFloatAt_run (natChars (h / 100))
      [Nat.digitChar (h % 100 / 10), Nat.digitChar (h % 100 % 10)]
      (',' :: 'L' :: ':' :: fmt2 l)
      (natChars_digits _) (natChars_ne_nil _) (twoDig_digits h) (by simp) (headNotDigit_comma _)
    simpa [fmt2, List.append_assoc] using h0
  rw [hline]
  simp only [searchFloat]
  rw [searchKey_skip matchFloatAt 'H' _ _
    (pre_ne_key t 'T' ':' 'H' (by decide) (by decide) (by decide) (by decide) (by decide))]
  exact searchKey_hit _ _ _ _ hmH

theorem searchL_line (t h l : ℕ) :
    searchLight 'L' (get_sensor_line t h l) = some (fmt2 l) := by
  have hline : get_sensor_line t h l =
      ('T' :: ':' :: fmt2 t ++ [',']) ++
        ('H' :: ':' :: (fmt2 h ++ ',' :: 'L' :: ':' :: fmt2 l)) := by
    simp [get_sensor_line]
  have hmid : ('H' :: ':' :: (fmt2 h ++ ',' :: 'L' :: ':' :: fmt2 l) : List Char) =
      ('H' :: ':' :: fmt2 h ++ [',']) ++ ('L' :: ':' :: fmt2 l) := by
    simp
  have hmL : matchLightAt (fmt2 l) = some (fmt2 l) := by
    have h0 := matchLightAt_run (natChars (l / 100))
      [Nat.digitChar (l % 100 / 10), Nat.digitChar (l % 100 % 10)] []
      (natChars_digits _) (natChars_ne_nil _) (twoDig_digits l) (by simp) trivial
    simpa [fmt2] using h0
  rw [hline]
  simp only [searchLight]
  rw [searchKey_skip matchLightAt 'L' _ _
    (pre_ne_key t 'T' ':' 'L' (by decide) (by decide) (by decide) (by decide) (by decide))]
  rw [hmid]
  rw [searchKey_skip matchLightAt 'L' _ _
    (pre_ne_key h 'H' ':' 'L' (by decide) (by decide) (by decide) (by decide) (by decide))]
  exact searchKey_hit _ _ _ _ hmL

theorem natOfDigits_twoDig (m : ℕ) (hm : m < 100) :
    natOfDigits [Nat.digitChar (m / 10), Nat.digitChar (m % 10)] = m := by
  simp [natOfDigits, digToNat_digitChar (m / 10) (by omega),
    digToNat_digitChar (m % 10) (Nat.mod_lt _ (by norm_num))]
  omega

theorem floatOfChars_fmt2 (n : ℕ) : floatOfChars (fmt2 n) = (n : ℚ) / 100 := by
  have h1 : (fmt2 n).takeWhile Char.isDigit = natChars (n / 100) := by
    simp only [fmt2]
    exact takeWhile_digits _ _ (natChars_digits _) (headNotDigit_dot _)
  have h2 : (fmt2 n).dropWhile Char.isDigit =
      '.' :: [Nat.digitChar (n % 100 / 10), Nat.digitChar (n % 100 % 10)] := by
    simp only [fmt2]
    exact dropWhile_digits _ _ (natChars_digits _) (headNotDigit_dot _)
  have h3 : natOfDigits [Nat.digitChar (n % 100 / 10), Nat.digitChar (n % 100 % 10)] = n % 100 :=
    natOfDigits_twoDig (n % 100) (Nat.mod_lt _ (by norm_num))
  simp only [floatOfChars, h1, h2, h3, natOfDigits_natChars, List.length_cons,
    List.length_nil]
  have hn : ((n / 100 : ℕ) : ℚ) * 100 + ((n % 100 : ℕ) : ℚ) = (n : ℚ) := by
    have h := Nat.div_add_mod n 100
    calc ((n / 100 : ℕ) : ℚ) * 100 + ((n % 100 : ℕ) : ℚ)
        = ((100 * (n / 100) + n % 100 : ℕ) : ℚ) := by push_cast; ring
      _ = (n : ℚ) := by rw [h]
  rw [← hn]
  norm_num
  ring

/-- C7.  Round trip: formatting any reading whose three fields are
(nonnegative) two-decimal values — field numerators `t`, `h`, `l` in
centi-units, the exact domain of the canonical wire format `\d+\.\d\d` — and
parsing the resulting line reproduces the reading; and the scenario frame
`"T:22.15,H:52.15,L:41.00\n"` decodes, strips, and parses to the reading
`{temperature: 22.15, humidity: 52.15, light: 41.00}`. -/
theorem C7_format_parse_round_trip :
    (∀ t h l : ℕ,
      parseLine (get_sensor_line t h l) =
        ⟨some ((t : ℚ) / 100), some ((h : ℚ) / 100), some ((l : ℚ) / 100)⟩)
    ∧ notification_handler (("T:22.15,H:52.15,L:41.00\n").data.map Char.toNat) =
        HandlerResult.processed (get_sensor_line 2215 5215 4100)
    ∧ parseLine (get_sensor_line 2215 5215 4100) =
        ⟨some (2215 / 100), some (5215 / 100), some (4100 / 100)⟩ := by
  have hmain : ∀ t h l : ℕ,
      parseLine (get_sensor_line t h l) =
        ⟨some ((t : ℚ) / 100), some ((h : ℚ) / 100), some ((l : ℚ) / 100)⟩ := by
    intro t h l
    simp only [parseLine]
    rw [searchT_line t h l, searchH_line t h l, searchL_line t h l]
    simp [floatOfChars_fmt2]
  refine ⟨hmain, by decide, ?_⟩
  rw [hmain 2215 5215 4100]
  simp only [TelemetryReading.mk.injEq, Option.some.injEq]
  norm_num
